import Mathlib

set_option maxHeartbeats 1000000

namespace Spec2Proof

/-!
Shallow embedding of the huaweicloud/cloudide-plugin-core coordinator layer.

The repository has two generations of the host-side coordinator: the
`cloudide` generation (src/node/plugin-api.ts, with the page side in the first
half of src/browser/plugin-api.ts) and the `codearts` generation (the second
half of src/browser/plugin-api.ts).  Both are embedded below where a claim
touches them.  Asynchronous `await`s on a `Deferred` are embedded by explicit
state: a deferred boolean is `Option Bool` (`none` = still pending), and a
call parked on an `await` of a deferred is recorded in an explicit queue that
is flushed when the deferred resolves.
-/

/-! ## JavaScript array and string primitives used by the source -/

/-- JS `Array.prototype.indexOf` restricted to strings: index of the first
occurrence of `e` in `l`, `-1` when `e` does not occur. -/
def jsIndexOf (l : List String) (e : String) : Int :=
  match l with
  | [] => -1
  | x :: rest =>
    if x = e then 0
    else if jsIndexOf rest e < 0 then -1 else jsIndexOf rest e + 1

/-- JS `Array.prototype.splice(start, 1)`: a negative `start` counts from the
end of the array (clamped at `0`); a `start` at or past the end deletes
nothing. -/
def jsSpliceOne (l : List String) (start : Int) : List String :=
  l.eraseIdx
    (if start < 0 then max ((l.length : Int) + start) 0
     else min start (l.length : Int)).toNat

/-- Truthiness of a JS string-valued field: `undefined`/`null` and the empty
string are falsy. -/
def truthyStr : Option String → Bool
  | none => false
  | some s => !(s == "")

/-- JS `String.prototype.toLowerCase` on one character, restricted to the
ASCII letters that appear in plugin identifiers. -/
def charToLower (c : Char) : Char :=
  if 'A' ≤ c ∧ c ≤ 'Z' then Char.ofNat (c.toNat + 32) else c

/-- JS `String.prototype.toLowerCase` (ASCII). -/
def jsToLower (s : String) : String := String.mk (s.data.map charToLower)

/-- Split a character list at the first occurrence of `"::"`, when there is
one. -/
def splitAtSep : List Char → Option (List Char × List Char)
  | [] => none
  | ':' :: ':' :: rest => some ([], rest)
  | c :: rest =>
    match splitAtSep rest with
    | some (a, b) => some (c :: a, b)
    | none => none

/-! ## Event relay bookkeeping (DefaultPluginApiHost)

`subscribedEvents` is a JS array of event-type names.  The source operations:

* `subscribeEvent`:
  `if (supportedEventTypes.get(t) && subscribedEvents.indexOf(t) < 0) push(t)`
  (the `else` branch talks to the huawei-common API and leaves the table
  untouched);
* `unsubscribeEvent`: `subscribedEvents.splice(subscribedEvents.indexOf(t), 1)`;
* the listener registered per supported event type forwards an event iff
  `subscribedEvents.indexOf(t) >= 0` at the moment the event fires.
-/

/-- Table mutation performed by `subscribeEvent`. -/
def subscribeEventTable (supported subscribed : List String) (eventType : String) :
    List String :=
  if supported.contains eventType && decide (jsIndexOf subscribed eventType < 0) then
    subscribed ++ [eventType]
  else subscribed

/-- Source `unsubscribeEvent`: splice out at `indexOf(eventType)` (which is `-1` when
the event type was never subscribed). -/
def unsubscribeEvent (subscribed : List String) (eventType : String) : List String :=
  jsSpliceOne subscribed (jsIndexOf subscribed eventType)

/-- Guard of the relay listener in `registerEventListener`:
`subscribedEvents.indexOf(eventType) >= 0`. -/
def eventFires (subscribed : List String) (eventType : String) : Bool :=
  decide (0 ≤ jsIndexOf subscribed eventType)

/-- Subscribed-events tables reachable by the relay's own mutations, starting
from the empty table (fixed supported set). -/
inductive ReachableTable (supported : List String) : List String → Prop
  | nil : ReachableTable supported []
  | subscribe (s : List String) (e : String) :
      ReachableTable supported s →
      ReachableTable supported (subscribeEventTable supported s e)
  | unsubscribe (s : List String) (e : String) :
      ReachableTable supported s →
      ReachableTable supported (unsubscribeEvent s e)

/-! ## Unit instantiation (initApi), claim C4

`initApi` pushes the built-in default host class onto the registration list
and then walks it, instantiating a class only when the JS `Map` of backends
has no entry for it yet; the `Map` preserves insertion order.  Classes are
embedded as their identities (`Nat`). -/

/-- One step of the forEach over backend classes: the guard
`if (!this.backends.get(backendClass)) { ...; this.backends.set(...) }`. -/
def addBackend (m : List Nat) (c : Nat) : List Nat :=
  if m.contains c then m else m ++ [c]

/-- The instance list produced by `initApi` for a registration list and the
built-in default class. -/
def initBackends (backendClasses : List Nat) (defaultClass : Nat) : List Nat :=
  (backendClasses ++ [defaultClass]).foldl addBackend []

/-- Modelled from the spec's words for comparison with `initBackends`: exactly
one instance per distinct class, in the order of each class's first
appearance. -/
def firstSeenOrder : List Nat → List Nat
  | [] => []
  | c :: rest => c :: (firstSeenOrder rest).filter (fun x => x != c)

/-! ## initApi init/run ordering, claim C1

`initApi` collects every unit's `init()` promise, `await Promise.all(...)`s
them, and only then invokes `run()` on every unit (the node generation also
awaits the readiness handshake in between, which only delays the `run()`
calls further).  The cooperative execution is embedded as a labelled
transition system: a `settle` step records one unit's `init()` promise
settling (resolving or rejecting), and a `run` step is `initApi` invoking one
unit's `run()`.  The `Promise.all` barrier is the guard `pending = []`, and a
rejection (`ok = false`) makes `Promise.all` reject so that the `run` loop is
never reached (`failed` guard). -/

/-- Events observable while `initApi` executes. -/
inductive InitEv
  | settle (unit : Nat) (ok : Bool)
  | run (unit : Nat)
deriving DecidableEq

/-- Coordinator state while `initApi` executes: `pending` holds the units whose
`init()` has not yet settled, `failed` records whether some `init()` rejected,
and `toRun` the units whose `run()` has not yet been invoked. -/
structure InitSt where
  pending : List Nat
  failed : Bool
  toRun : List Nat
deriving DecidableEq

/-- One cooperative step of the `initApi` execution. -/
inductive InitStep : InitSt → InitEv → InitSt → Prop
  | settle (i : Nat) (pending : List Nat) (failed : Bool) (toRun : List Nat)
      (ok : Bool) (h : i ∈ pending) :
      InitStep ⟨pending, failed, toRun⟩ (InitEv.settle i ok)
        ⟨pending.erase i, failed || !ok, toRun⟩
  | run (u : Nat) (rest : List Nat) :
      InitStep ⟨[], false, u :: rest⟩ (InitEv.run u) ⟨[], false, rest⟩

/-- Finite executions of `initApi`, recorded as the trace of observed events. -/
inductive InitReaches : InitSt → List InitEv → InitSt → Prop
  | refl (s : InitSt) : InitReaches s [] s
  | snoc {s s' s'' : InitSt} {tr : List InitEv} {e : InitEv} :
      InitReaches s tr s' → InitStep s' e s'' → InitReaches s (tr ++ [e]) s''

/-- The state right after `initApi` has pushed every `init()` promise for
units `0, …, n-1`. -/
def initApiStart (n : Nat) : InitSt := ⟨List.range n, false, List.range n⟩

/-! ## Host-side Plugin.call and the page-initialized deferred, claim C2

codearts `Plugin.call` (src/browser/plugin-api.ts):

* the addressed view type is the part of the identifier before the first
  `"::"` (empty when there is none);
* the target container is the sole container when the map size is exactly 1,
  otherwise the map entry keyed by the addressed view type;
* no target: log + `Promise.reject`;
* otherwise `await viewContainer.pageInitialized.promise` before handing the
  call to the messaging layer — a call issued while the deferred is pending
  parks on that `await` and proceeds when `onPageInit` resolves it. -/

/-- A webview container as seen by `Plugin.call`: its deferred page-initialized
signal, calls parked on an `await` of that signal, and calls already handed to
the messaging layer. -/
structure CallContainer where
  viewType : String
  pageInit : Option Bool
  parked : List Nat
  handedOff : List Nat
deriving DecidableEq

/-- The host coordinator's container map (insertion-ordered, keyed by view
type). -/
structure CallHost where
  containers : List CallContainer
deriving DecidableEq

/-- Outcome of one `Plugin.call` invocation. -/
inductive CallOutcome
  | rejected
  | parked
  | handedOff
deriving DecidableEq

/-- The view type addressed by a call identifier:
`identifier.indexOf('::') >= 0 ? identifier.substring(0, idx) : ''`. -/
def viewTypeOf (identifier : String) : String :=
  match splitAtSep identifier.data with
  | some (a, _) => String.mk a
  | none => ""

/-- Index of the container `Plugin.call` targets:
`size === 1 ? values().next().value : get(viewType)`. -/
def findTargetIdx (cs : List CallContainer) (identifier : String) : Option Nat :=
  if cs.length == 1 then some 0
  else cs.findIdx? (fun c => c.viewType == viewTypeOf identifier)

/-- Source `Plugin.call` for one call (identified by `callId`). -/
def hostCall (s : CallHost) (identifier : String) (callId : Nat) :
    CallHost × CallOutcome :=
  match findTargetIdx s.containers identifier with
  | none => (s, CallOutcome.rejected)
  | some i =>
    match s.containers.get? i with
    | none => (s, CallOutcome.rejected)
    | some c =>
      match c.pageInit with
      | some _ =>
          (⟨s.containers.set i { c with handedOff := c.handedOff ++ [callId] }⟩,
           CallOutcome.handedOff)
      | none =>
          (⟨s.containers.set i { c with parked := c.parked ++ [callId] }⟩,
           CallOutcome.parked)

/-- Resolution of a `Deferred` is idempotent: the first resolution wins. -/
def resolveDeferred (d : Option Bool) (v : Bool) : Option Bool :=
  match d with
  | some b => some b
  | none => some v

/-- codearts `DefaultPluginApiHost.onPageInit`: resolve the addressed
container's page-initialized deferred; resolving releases, in FIFO order,
every call parked on it. -/
def hostOnPageInit (s : CallHost) (viewType : String) (success : Bool) :
    CallHost × Bool :=
  match s.containers.findIdx? (fun c => c.viewType == viewType) with
  | none => (s, false)
  | some i =>
    match s.containers.get? i with
    | none => (s, false)
    | some c =>
      let c' : CallContainer :=
        if c.pageInit = none then
          { c with pageInit := resolveDeferred c.pageInit success,
                   handedOff := c.handedOff ++ c.parked, parked := [] }
        else { c with pageInit := resolveDeferred c.pageInit success }
      (⟨s.containers.set i c'⟩, success)

/-! ## createWebviewPanel / createDynamicWebviewPanel, claim C5

`renderHtml` reads files and template-engines them; a re-render is observable,
so the embedding counts `renderHtml` invocations (`renders`) and stamps each
panel's html with the serial number of the invocation that produced it.
`reveal()` calls are logged by panel instance id. -/

/-- A webview panel: its identity (`instId`), view type, title, icon, and the
serial number of the `renderHtml` call that produced its current html. -/
structure Panel5 where
  instId : Nat
  viewType : String
  title : String
  iconPath : Option String
  htmlStamp : Nat
deriving DecidableEq

/-- Options passed to panel creation (the fields the claim touches). -/
structure PanelOpts where
  viewType : String
  title : String
  iconPath : Option String
  preserveFocus : Bool
deriving DecidableEq

/-- codearts host coordinator state for panel creation: the container map, a
fresh-instance counter, the `renderHtml` invocation counter, and the log of
`reveal()` calls. -/
structure BrowserPanels where
  entries : List (String × Panel5)
  nextId : Nat
  renders : Nat
  revealLog : List Nat
deriving DecidableEq

/-- JS `Map.prototype.get` on the container map. -/
def lookupPanel (entries : List (String × Panel5)) (vt : String) : Option Panel5 :=
  (entries.find? (fun e => e.1 == vt)).map Prod.snd

/-- JS `Map.prototype.set`: replace in place (keeping insertion order) or
append. -/
def setPanel (entries : List (String × Panel5)) (vt : String) (p : Panel5) :
    List (String × Panel5) :=
  if (entries.find? (fun e => e.1 == vt)).isSome then
    entries.map (fun e => if e.1 == vt then (vt, p) else e)
  else entries ++ [(vt, p)]

/-- codearts `Plugin.createWebviewPanel(opts, override?)`:
only when `override` is set and a panel with the view type exists is that
panel updated (title, icon, freshly rendered html) and revealed unless
`preserveFocus`; on every other path a brand-new panel is constructed (its
constructor renders html once) and `container.set` stores it. -/
def browserCreateWebviewPanel (s : BrowserPanels) (opts : PanelOpts)
    (override : Bool) : BrowserPanels × Panel5 :=
  match (if override then lookupPanel s.entries opts.viewType else none) with
  | some p =>
      let p' : Panel5 :=
        { p with title := opts.title, iconPath := opts.iconPath,
                 htmlStamp := s.renders }
      ({ s with entries := setPanel s.entries opts.viewType p',
                renders := s.renders + 1,
                revealLog :=
                  if opts.preserveFocus then s.revealLog
                  else s.revealLog ++ [p.instId] }, p')
  | none =>
      let p : Panel5 :=
        { instId := s.nextId, viewType := opts.viewType, title := opts.title,
          iconPath := opts.iconPath, htmlStamp := s.renders }
      ({ s with entries := setPanel s.entries opts.viewType p,
                nextId := s.nextId + 1, renders := s.renders + 1 }, p)

/-- Node-side coordinator state for dynamic webview panels
(`revealingDynamicWebview` is an array). -/
structure NodePanels where
  panels : List Panel5
  nextId : Nat
  renders : Nat
  revealLog : List Nat
deriving DecidableEq

/-- node `PluginContainerPanel.createDynamicWebviewPanel(opts, override?)`:
when a panel with the view type is already revealing, update it only under
`override` (title, icon, freshly rendered html), reveal it unless
`preserveFocus`, and return it; otherwise construct a new panel (one render),
push it, and return `undefined` (the source has no `return` on that path). -/
def nodeCreateDynamicWebviewPanel (s : NodePanels) (opts : PanelOpts)
    (override : Bool) : NodePanels × Option Panel5 :=
  match s.panels.find? (fun p => p.viewType == opts.viewType) with
  | some p =>
      let p' : Panel5 :=
        if override then
          { p with title := opts.title, iconPath := opts.iconPath,
                   htmlStamp := s.renders }
        else p
      ({ s with
          panels := s.panels.map
            (fun q => if q.viewType == opts.viewType then p' else q),
          renders := if override then s.renders + 1 else s.renders,
          revealLog :=
            if opts.preserveFocus then s.revealLog
            else s.revealLog ++ [p'.instId] }, some p')
  | none =>
      let p : Panel5 :=
        { instId := s.nextId, viewType := opts.viewType, title := opts.title,
          iconPath := opts.iconPath, htmlStamp := s.renders }
      ({ s with panels := s.panels ++ [p], nextId := s.nextId + 1,
                renders := s.renders + 1 }, none)

/-! ## Container disposal, claim C6

codearts `BaseWebviewContainer.dispose()` has no guard on the disposed flag:
every invocation sets `_disposed`, fires every registered dispose listener,
and tail-calls `Plugin.dispose(viewType)`, which (the flag now being set)
only deletes the map entry.  `Plugin.dispose(viewType)` itself guards with
`!webviewContainer.disposed` before invoking the container's `dispose()` and
deletes the entry in every case. -/

/-- Observable per-container disposal state: the disposed flag and how many
rounds of dispose-listener notifications have been fired. -/
structure Cont6 where
  disposed : Bool
  notifyRounds : Nat
deriving DecidableEq

/-- One `BaseWebviewContainer.dispose()` invocation, seen from the container
object: set the flag and fire the registered listeners once more. -/
def containerDispose (c : Cont6) : Cont6 :=
  { disposed := true, notifyRounds := c.notifyRounds + 1 }

/-- Coordinator state for per-view disposal: the container map and a log with
one entry (the view type) per round of dispose-listener notifications. -/
structure DisposeState where
  entries : List (String × Cont6)
  notifyLog : List String
deriving DecidableEq

/-- JS `Map.prototype.delete` keyed by view type. -/
def eraseEntry (entries : List (String × Cont6)) (vt : String) :
    List (String × Cont6) :=
  entries.filter (fun e => !(e.1 == vt))

/-- JS `Map.prototype.get` keyed by view type. -/
def lookupEntry (entries : List (String × Cont6)) (vt : String) : Option Cont6 :=
  (entries.find? (fun e => e.1 == vt)).map Prod.snd

/-- codearts `Plugin.dispose(viewType)`: invoke the container's `dispose()`
only when the entry exists and its flag is not yet set (the container's own
tail call then deletes the entry), and delete the entry in every case. -/
def pluginDisposeView (s : DisposeState) (vt : String) : DisposeState :=
  match lookupEntry s.entries vt with
  | some c =>
      if c.disposed then { s with entries := eraseEntry s.entries vt }
      else
        { entries := eraseEntry s.entries vt, notifyLog := s.notifyLog ++ [vt] }
  | none => { s with entries := eraseEntry s.entries vt }

/-! ## Coordinator dispose with no view type, claim C7

codearts `Plugin.dispose()` with the view-type argument omitted runs

```
this._container.forEach((webviewContainer) => {
    webviewContainer.dispose();
    this._container.clear();
});
```

so the callback body both disposes the visited container (whose own tail call
deletes its entry) and clears the whole map.  JS `Map.prototype.forEach`
iterates the live map in insertion order, so after `clear()` there is no next
entry to visit. -/

/-- Coordinator state for dispose-all: the container map (view type, disposed
flag) and the log of containers whose `dispose()` was invoked. -/
structure C7State where
  entries : List (String × Bool)
  disposeLog : List String
deriving DecidableEq

/-- JS `Map.prototype.delete` keyed by view type. -/
def c7EraseEntry (entries : List (String × Bool)) (vt : String) :
    List (String × Bool) :=
  entries.filter (fun e => !(e.1 == vt))

/-- Body of the forEach callback: `webviewContainer.dispose()` (listeners
fired, flag set, entry deleted by the container's own
`Plugin.dispose(viewType)` tail call) followed by `this._container.clear()`. -/
def c7Body (s : C7State) (vt : String) : C7State :=
  let afterDispose : C7State :=
    { entries :=
        c7EraseEntry (s.entries.map (fun e => if e.1 == vt then (e.1, true) else e)) vt,
      disposeLog := s.disposeLog ++ [vt] }
  { afterDispose with entries := [] }

/-- JS `Map.prototype.forEach` with a callback that may mutate the map:
repeatedly visit the first not-yet-visited key of the live map. -/
def jsMapForEach (fuel : Nat) (visited : List String) (s : C7State) : C7State :=
  match fuel with
  | 0 => s
  | fuel + 1 =>
    match s.entries.find? (fun e => !(visited.contains e.1)) with
    | none => s
    | some e => jsMapForEach fuel (visited ++ [e.1]) (c7Body s e.1)

/-- codearts `Plugin.dispose()` with the view-type argument omitted. -/
def pluginDisposeAll (s : C7State) : C7State :=
  jsMapForEach (s.entries.length + 1) [] s

/-! ## beforeUninstall handshake subscription, claim C8 -/

/-- The reserved internal event type. -/
def beforeUninstallEventType : String := "cloudide.plugin.beforeUninstall"

/-- Keys of the node host's `supportedEventTypes` map (the `EventType` enum of
src/common/plugin-common.ts). -/
def nodeSupportedEventTypes : List String :=
  ["cloudide.workspace.onDidChangeConfiguration",
   "cloudide.workspace.onDidChangeTextDocument",
   "cloudide.workspace.onDidChangeWorkspaceFolders",
   "cloudide.workspace.onDidCloseTextDocument",
   "cloudide.workspace.onDidCreateFiles",
   "cloudide.workspace.onDidDeleteFiles",
   "cloudide.workspace.onDidOpenTextDocument",
   "cloudide.workspace.onDidRenameFiles",
   "cloudide.workspace.onDidSaveTextDocument",
   "cloudide.workspace.onWillCreateFiles",
   "cloudide.workspace.onWillDeleteFiles",
   "cloudide.workspace.onWillRenameFiles",
   "cloudide.workspace.onWillSaveTextDocument",
   "cloudide.debug.onDidChangeActiveDebugSession",
   "cloudide.debug.onDidChangeBreakpoints",
   "cloudide.debug.onDidReceiveDebugSessionCustomEvent",
   "cloudide.debug.onDidStartDebugSession",
   "cloudide.debug.onDidTerminateDebugSession",
   "cloudide.languages.onDidChangeDiagnostics",
   "cloudide.plugins.onDidChange",
   "cloudide.tasks.onDidEndTask",
   "cloudide.tasks.onDidEndTaskProcess",
   "cloudide.tasks.onDidStartTask",
   "cloudide.tasks.onDidStartTaskProcess",
   "cloudide.window.onDidChangeActiveTerminal",
   "cloudide.window.onDidChangeActiveTextEditor",
   "cloudide.window.onDidChangeTextEditorOptions",
   "cloudide.window.onDidChangeTextEditorSelection",
   "cloudide.window.onDidChangeTextEditorViewColumn",
   "cloudide.window.onDidChangeTextEditorVisibleRanges",
   "cloudide.window.onDidChangeVisibleTextEditors",
   "cloudide.window.onDidChangeWindowState",
   "cloudide.window.onDidCloseTerminal",
   "cloudide.window.onDidOpenTerminal"]

/-- Node host coordinator state (the fields claim C8 touches): the global
page-initialized deferred, the subscribed-events table, whether the
huawei-common API object is available, the event types registered through that
API, and whether `Plugin.stop()` has been invoked. -/
structure NodeHost where
  pageInit : Option Bool
  subscribedEvents : List String
  huaweiApi : Bool
  huaweiRegs : List String
  stopped : Bool
deriving DecidableEq

/-- node `DefaultPluginApiHost.subscribeEvent`: push onto the table when the
type is supported and not yet present; otherwise register through the
huawei-common API when that API is available, else do nothing. -/
def nodeSubscribeEvent (st : NodeHost) (eventType : String) : NodeHost :=
  if nodeSupportedEventTypes.contains eventType
      && decide (jsIndexOf st.subscribedEvents eventType < 0) then
    { st with subscribedEvents := st.subscribedEvents ++ [eventType] }
  else if st.huaweiApi then { st with huaweiRegs := st.huaweiRegs ++ [eventType] }
  else st

/-- node `DefaultPluginApiHost.onPageInit(success?)`: refresh the
huawei-common API handle, resolve the global page-initialized deferred with
`!!success`, then `subscribeEvent(beforeUninstallEventType)`. -/
def nodeOnPageInit (st : NodeHost) (huaweiCommonPresent : Bool) (success : Bool) :
    NodeHost × Bool :=
  let st1 := { st with huaweiApi := huaweiCommonPresent || st.huaweiApi }
  let st2 := { st1 with pageInit := resolveDeferred st1.pageInit success }
  (nodeSubscribeEvent st2 beforeUninstallEventType, success)

/-- The payload check of `fireTheiaEvent`:
`(event.pluginId as string).toLowerCase() ===
 (packageJson.publisher + '.' + packageJson.name).toLowerCase()`
(`none` models a falsy `event`). -/
def pluginIdMatches (payloadPluginId : Option String) (publisher name : String) :
    Bool :=
  match payloadPluginId with
  | some pid => jsToLower pid == jsToLower (publisher ++ "." ++ name)
  | none => false

/-- node `DefaultPluginApiHost.fireTheiaEvent` restricted to its own
side-effect: invoke `Plugin.stop()` when the event is a `beforeUninstall` for
this very plugin. -/
def nodeFireTheiaEvent (st : NodeHost) (ty : String) (payloadPluginId : Option String)
    (publisher name : String) : NodeHost :=
  if ty == beforeUninstallEventType && pluginIdMatches payloadPluginId publisher name
  then { st with stopped := true }
  else st

/-- codearts host coordinator state (the fields claim C8 touches): per-container
page-initialized deferreds, the subscribed-events table, and the stop flag. -/
structure CaHost where
  containers : List (String × Option Bool)
  subscribedEvents : List String
  stopped : Bool
deriving DecidableEq

/-- codearts `DefaultPluginApiHost.onPageInit(viewType, success?)`: look the
container up by view type (returning `false` when absent) and resolve its
page-initialized deferred; nothing is subscribed. -/
def caOnPageInit (st : CaHost) (viewType : String) (success : Bool) :
    CaHost × Bool :=
  match (st.containers.find? (fun e => e.1 == viewType)).map Prod.snd with
  | none => (st, false)
  | some d =>
      let resolved :=
        st.containers.map
          (fun e => if e.1 == viewType then (e.1, resolveDeferred d success) else e)
      ({ st with containers := resolved }, success)

/-- The registration the claim asserts `onPageInit` performs: after the
handshake the reserved event type is subscribed somewhere (table or
huawei-common registration). -/
def beforeUninstallRegistered (st : NodeHost) : Prop :=
  beforeUninstallEventType ∈ st.subscribedEvents
  ∨ beforeUninstallEventType ∈ st.huaweiRegs

/-! ## handleMessage, claim C9 -/

/-- An inbound postMessage payload: the `from` and `func` fields (`none` when
the field is absent). -/
structure JsMessage where
  fromField : Option String
  func : Option String
deriving DecidableEq

/-- What `handleMessage` does with a relayed message. -/
inductive C9Effect
  | dispatchToOthers
  | localHandler
deriving DecidableEq

/-- Source `handleMessage` (identical guard in the codearts `BaseWebviewContainer`
and the node `PluginContainerPanel`):
`if (!message.from || !message.func) return;` then relay to the coordinator's
dispatch step and, when one is registered, to the local message handler. -/
def handleMessage (hasLocalHandler : Bool) (m : JsMessage) : List C9Effect :=
  if !truthyStr m.fromField || !truthyStr m.func then []
  else
    C9Effect.dispatchToOthers ::
      (if hasLocalHandler then [C9Effect.localHandler] else [])

/-- The behaviour claim C9 asserts of `handleMessage`: only messages lacking
both fields are dropped and every other message is relayed. -/
def c9ClaimHolds (m : JsMessage) : Prop :=
  (truthyStr m.fromField = false ∧ truthyStr m.func = false →
    handleMessage true m = [])
  ∧ (¬(truthyStr m.fromField = false ∧ truthyStr m.func = false) →
    handleMessage true m ≠ [])

/-- The reuse behaviour claim C5 asserts of the codearts
`Plugin.createWebviewPanel` with `override = false`: the existing container is
returned and no re-render happens. -/
def c5BrowserReuseClaim : Prop :=
  ∀ (s : BrowserPanels) (opts : PanelOpts) (p : Panel5),
    lookupPanel s.entries opts.viewType = some p →
    (browserCreateWebviewPanel s opts false).2 = p
    ∧ (browserCreateWebviewPanel s opts false).1.renders = s.renders

/-- The idempotence claim C6 asserts of `BaseWebviewContainer.dispose`:
on an already-disposed container a further `dispose()` changes nothing. -/
def c6IdempotenceClaim : Prop :=
  ∀ c : Cont6, c.disposed = true → containerDispose c = c

/-! # Theorems -/

/-! ## Lemmas about the JS primitives -/

theorem contains_eq_decide_mem {α : Type} [BEq α] [LawfulBEq α] (l : List α) (a : α) :
    l.contains a = decide (a ∈ l) :=
  List.elem_eq_mem a l

theorem jsIndexOf_ge_neg_one (l : List String) (e : String) : -1 ≤ jsIndexOf l e := by
  induction l with
  | nil => simp [jsIndexOf]
  | cons x rest ih =>
    rw [jsIndexOf]
    split
    · omega
    · split <;> omega

theorem jsIndexOf_nonneg_iff (l : List String) (e : String) :
    0 ≤ jsIndexOf l e ↔ e ∈ l := by
  induction l with
  | nil => simp [jsIndexOf]
  | cons x rest ih =>
    rw [jsIndexOf]
    by_cases hx : x = e
    · subst hx
      simp
    · rw [if_neg hx]
      by_cases hr : jsIndexOf rest e < 0
      · rw [if_pos hr]
        simp only [List.mem_cons]
        constructor
        · intro h
          omega
        · intro h
          rcases h with h | h
          · exact absurd h.symm hx
          · have := ih.mpr h
            omega
      · rw [if_neg hr]
        simp only [List.mem_cons]
        constructor
        · intro _
          right
          exact ih.mp (by omega)
        · intro _
          omega

theorem jsIndexOf_lt_length (l : List String) (e : String) :
    jsIndexOf l e < (l.length : Int) := by
  induction l with
  | nil => simp [jsIndexOf]
  | cons x rest ih =>
    rw [jsIndexOf]
    simp only [List.length_cons]
    push_cast
    split
    · omega
    · split <;> omega

theorem jsIndexOf_neg_of_not_mem {l : List String} {e : String} (h : e ∉ l) :
    jsIndexOf l e = -1 := by
  have h1 := jsIndexOf_ge_neg_one l e
  have h2 : ¬ 0 ≤ jsIndexOf l e := fun hc => h ((jsIndexOf_nonneg_iff l e).mp hc)
  omega

theorem jsSpliceOne_nonneg_lt {l : List String} {i : Int} (h0 : 0 ≤ i)
    (hl : i < (l.length : Int)) :
    jsSpliceOne l i = l.eraseIdx i.toNat := by
  unfold jsSpliceOne
  rw [if_neg (by omega), min_eq_left (le_of_lt hl)]

theorem eraseIdx_length_sub_one (l : List String) :
    l.eraseIdx (l.length - 1) = l.dropLast := by
  induction l with
  | nil => rfl
  | cons x rest ih =>
    cases rest with
    | nil => rfl
    | cons y t =>
      have hlen : (x :: y :: t).length - 1 = (y :: t).length - 1 + 1 := by
        simp only [List.length_cons]
        omega
      rw [hlen, List.eraseIdx_cons_succ, ih]
      rfl

theorem unsubscribeEvent_not_mem {l : List String} {e : String} (h : e ∉ l) :
    unsubscribeEvent l e = l.dropLast := by
  unfold unsubscribeEvent jsSpliceOne
  rw [jsIndexOf_neg_of_not_mem h]
  cases l with
  | nil => rfl
  | cons x rest =>
    rw [if_pos (by omega : (-1 : Int) < 0)]
    have hmax : max (((x :: rest).length : Int) + -1) 0
        = ((x :: rest).length : Int) - 1 := by
      rw [max_eq_left]
      · omega
      · simp only [List.length_cons]
        push_cast
        omega
    rw [hmax]
    have htn : (((x :: rest).length : Int) - 1).toNat = (x :: rest).length - 1 := by
      simp only [List.length_cons]
      push_cast
      omega
    rw [htn, eraseIdx_length_sub_one]

theorem unsubscribeEvent_cons (x : String) (rest : List String) (e : String) :
    unsubscribeEvent (x :: rest) e =
      if x = e then rest
      else if e ∈ rest then x :: unsubscribeEvent rest e
      else (x :: rest).dropLast := by
  by_cases hx : x = e
  · rw [if_pos hx]
    have hidx : jsIndexOf (x :: rest) e = 0 := by
      rw [jsIndexOf, if_pos hx]
    unfold unsubscribeEvent
    rw [hidx, jsSpliceOne_nonneg_lt (by omega)
      (by simp only [List.length_cons]; push_cast; omega)]
    rfl
  · rw [if_neg hx]
    by_cases hm : e ∈ rest
    · rw [if_pos hm]
      have hr0 : 0 ≤ jsIndexOf rest e := (jsIndexOf_nonneg_iff rest e).mpr hm
      have hrlen : jsIndexOf rest e < (rest.length : Int) := jsIndexOf_lt_length rest e
      have hidx : jsIndexOf (x :: rest) e = jsIndexOf rest e + 1 := by
        rw [jsIndexOf, if_neg hx, if_neg (by omega)]
      unfold unsubscribeEvent
      rw [hidx, jsSpliceOne_nonneg_lt (by omega)
        (by simp only [List.length_cons]; push_cast; omega)]
      rw [jsSpliceOne_nonneg_lt hr0 hrlen]
      have htn : (jsIndexOf rest e + 1).toNat = (jsIndexOf rest e).toNat + 1 := by
        omega
      rw [htn, List.eraseIdx_cons_succ]
    · rw [if_neg hm]
      exact unsubscribeEvent_not_mem (by
        intro hc
        rcases List.mem_cons.mp hc with h1 | h2
        · exact hx h1.symm
        · exact hm h2)

theorem not_mem_unsubscribeEvent {l : List String} (hs : l.Nodup) (e : String) :
    e ∉ unsubscribeEvent l e := by
  induction l with
  | nil =>
    intro hc
    rw [unsubscribeEvent_not_mem (by simp)] at hc
    simp at hc
  | cons x rest ih =>
    rw [unsubscribeEvent_cons]
    by_cases hx : x = e
    · rw [if_pos hx]
      subst hx
      exact (List.nodup_cons.mp hs).1
    · rw [if_neg hx]
      by_cases hm : e ∈ rest
      · rw [if_pos hm]
        intro hcon
        rcases List.mem_cons.mp hcon with h1 | h2
        · exact hx h1.symm
        · exact ih (List.nodup_cons.mp hs).2 h2
      · rw [if_neg hm]
        intro hcon
        have hmem : e ∈ x :: rest := (List.dropLast_sublist _).subset hcon
        rcases List.mem_cons.mp hmem with h1 | h2
        · exact hx h1.symm
        · exact hm h2

theorem reachableTable_nodup {supported s : List String}
    (h : ReachableTable supported s) : s.Nodup := by
  induction h with
  | nil => exact List.nodup_nil
  | subscribe s e _ ih =>
    unfold subscribeEventTable
    split
    · next hcond =>
      have hlt : jsIndexOf s e < 0 :=
        of_decide_eq_true ((Bool.and_eq_true _ _).mp hcond).2
      have hnm : e ∉ s := fun hmem => by
        have := (jsIndexOf_nonneg_iff s e).mpr hmem
        omega
      rw [List.nodup_append]
      refine ⟨ih, List.nodup_singleton e, fun x hxs hxe => ?_⟩
      rw [List.mem_singleton] at hxe
      exact hnm (hxe ▸ hxs)
    · exact ih
  | unsubscribe s e _ ih =>
    unfold unsubscribeEvent jsSpliceOne
    exact List.Nodup.sublist (List.eraseIdx_sublist _ _) ih

/-! ## Claim C3 -/

/-- Claim C3: for every reachable subscribed-events table, an event fires a
remote call (plugin.page.onEvent) iff its event type is in the table at the
moment it fires; after `unsubscribeEvent e` further firings of `e` dispatch
nothing; and subscribing an event type outside the supported set leaves the
table unchanged. -/
theorem eventRelay_fires_iff (supported s : List String) (e : String)
    (h : ReachableTable supported s) :
    (eventFires s e = true ↔ e ∈ s)
    ∧ eventFires (unsubscribeEvent s e) e = false
    ∧ (e ∉ supported → subscribeEventTable supported s e = s) := by
  have hnd : s.Nodup := reachableTable_nodup h
  refine ⟨?_, ?_, ?_⟩
  · unfold eventFires
    simp [jsIndexOf_nonneg_iff]
  · unfold eventFires
    simp only [decide_eq_false_iff_not, jsIndexOf_nonneg_iff]
    exact not_mem_unsubscribeEvent hnd e
  · intro hns
    unfold subscribeEventTable
    rw [if_neg (by simp [contains_eq_decide_mem, hns])]

/-- Witness for C3 at a concrete reachable table. -/
theorem eventRelay_fires_iff_witness :
    (eventFires ["a"] "zz" = true ↔ "zz" ∈ (["a"] : List String))
    ∧ eventFires (unsubscribeEvent ["a"] "zz") "zz" = false
    ∧ ("zz" ∉ (["a", "b"] : List String) →
        subscribeEventTable ["a", "b"] ["a"] "zz" = ["a"]) := by
  have he : subscribeEventTable ["a", "b"] [] "a" = ["a"] := by decide
  have hr : ReachableTable ["a", "b"] ["a"] :=
    he ▸ ReachableTable.subscribe [] "a" ReachableTable.nil
  exact eventRelay_fires_iff ["a", "b"] ["a"] "zz" hr

/-! ## Claim C10 -/

/-- Claim C10: when the subscribed-events list is non-empty and
`unsubscribeEvent e` is called with an `e` not in the list, `indexOf` returns
`-1` and `splice(-1, 1)` removes the LAST element of the list. -/
theorem unsubscribeEvent_absent_removes_last (l : List String) (e : String)
    (hne : l ≠ []) (he : e ∉ l) :
    unsubscribeEvent l e = l.dropLast
    ∧ (unsubscribeEvent l e).length + 1 = l.length := by
  refine ⟨unsubscribeEvent_not_mem he, ?_⟩
  rw [unsubscribeEvent_not_mem he, List.length_dropLast]
  have : 0 < l.length := List.length_pos.mpr hne
  omega

/-- Witness for C10 at a concrete input. -/
theorem unsubscribeEvent_absent_removes_last_witness :
    unsubscribeEvent ["a", "b"] "c" = ["a"]
    ∧ (unsubscribeEvent ["a", "b"] "c").length + 1 = (["a", "b"] : List String).length := by
  have h := unsubscribeEvent_absent_removes_last ["a", "b"] "c" (by decide) (by decide)
  have hd : (["a", "b"] : List String).dropLast = ["a"] := by decide
  exact ⟨hd ▸ h.1, h.2⟩

/-! ## Claim C9 -/

/-- Counterexample to claim C9 as stated: a message with a truthy `from` field
and no `func` field is not "lacking both" fields, yet `handleMessage` drops
it (the source guard is `!message.from || !message.func`). -/
theorem handleMessage_counterexample :
    ¬ c9ClaimHolds ⟨some "webview", none⟩ := by
  unfold c9ClaimHolds
  decide

/-- Claim C9 amended: `handleMessage` relays a message iff both its `from`
and `func` fields are truthy (a message lacking either field is silently
dropped); a relayed message goes to the coordinator's dispatch step and, when
one is registered, to the local message handler. -/
theorem handleMessage_relays_iff (hasLocalHandler : Bool) (m : JsMessage) :
    (handleMessage hasLocalHandler m ≠ [] ↔
      truthyStr m.fromField = true ∧ truthyStr m.func = true)
    ∧ (truthyStr m.fromField = true → truthyStr m.func = true →
      handleMessage hasLocalHandler m =
        C9Effect.dispatchToOthers ::
          (if hasLocalHandler then [C9Effect.localHandler] else [])) := by
  cases hf : truthyStr m.fromField <;> cases hu : truthyStr m.func <;>
    simp [handleMessage, hf, hu]

/-- Witness for the amended C9 at a concrete relayed message. -/
theorem handleMessage_relays_iff_witness :
    (handleMessage true ⟨some "page", some "plugin.log"⟩ ≠ [] ↔
      truthyStr (some "page") = true ∧ truthyStr (some "plugin.log") = true)
    ∧ handleMessage true ⟨some "page", some "plugin.log"⟩ =
        [C9Effect.dispatchToOthers, C9Effect.localHandler] := by
  have h := handleMessage_relays_iff true ⟨some "page", some "plugin.log"⟩
  exact ⟨h.1, by simpa using h.2 (by decide) (by decide)⟩

/-! ## Claim C4 -/

theorem foldl_addBackend (l acc : List Nat) :
    l.foldl addBackend acc
      = acc ++ (firstSeenOrder l).filter (fun x => !acc.contains x) := by
  induction l generalizing acc with
  | nil => simp [firstSeenOrder]
  | cons c rest ih =>
    rw [List.foldl_cons, ih, firstSeenOrder]
    by_cases hc : c ∈ acc
    · have haddc : addBackend acc c = acc := by
        unfold addBackend
        rw [if_pos (by simp [contains_eq_decide_mem, hc])]
      rw [haddc, List.filter_cons]
      have hcc : (!acc.contains c) = false := by simp [contains_eq_decide_mem, hc]
      rw [hcc]
      simp only [Bool.false_eq_true, if_false]
      rw [List.filter_filter]
      congr 1
      apply List.filter_congr
      intro x hx
      by_cases hxc : x = c
      · subst hxc
        simp [contains_eq_decide_mem, hc]
      · simp [hxc]
    · have haddc : addBackend acc c = acc ++ [c] := by
        unfold addBackend
        rw [if_neg (by simp [contains_eq_decide_mem, hc])]
      rw [haddc, List.filter_cons]
      have hcc : (!acc.contains c) = true := by simp [contains_eq_decide_mem, hc]
      rw [hcc]
      simp only [if_true]
      rw [List.append_assoc, List.singleton_append]
      congr 2
      rw [List.filter_filter]
      apply List.filter_congr
      intro x hx
      by_cases hxc : x = c
      · subst hxc
        simp [contains_eq_decide_mem]
      · simp [contains_eq_decide_mem, hxc, List.mem_append]

theorem mem_firstSeenOrder (x : Nat) (l : List Nat) :
    x ∈ firstSeenOrder l ↔ x ∈ l := by
  induction l with
  | nil => simp [firstSeenOrder]
  | cons c rest ih =>
    simp only [firstSeenOrder, List.mem_cons, List.mem_filter]
    constructor
    · rintro (rfl | ⟨hx, _⟩)
      · exact Or.inl rfl
      · exact Or.inr (ih.mp hx)
    · rintro (rfl | hx)
      · exact Or.inl rfl
      · by_cases hxc : x = c
        · exact Or.inl hxc
        · exact Or.inr ⟨ih.mpr hx, by simpa using hxc⟩

theorem firstSeenOrder_nodup (l : List Nat) : (firstSeenOrder l).Nodup := by
  induction l with
  | nil => simp [firstSeenOrder]
  | cons c rest ih =>
    rw [firstSeenOrder, List.nodup_cons]
    constructor
    · intro hc
      have := (List.mem_filter.mp hc).2
      simp at this
    · exact List.Nodup.filter _ ih

/-- Claim C4: for every registration list (duplicates allowed), `initApi`
creates exactly one instance per distinct class, in first-seen order, with
the built-in default class appended to the list first. -/
theorem initBackends_firstSeen (backendClasses : List Nat) (defaultClass : Nat) :
    initBackends backendClasses defaultClass
      = firstSeenOrder (backendClasses ++ [defaultClass])
    ∧ (initBackends backendClasses defaultClass).Nodup
    ∧ ∀ c, (c ∈ initBackends backendClasses defaultClass
        ↔ c ∈ backendClasses ++ [defaultClass]) := by
  have h1 : initBackends backendClasses defaultClass
      = firstSeenOrder (backendClasses ++ [defaultClass]) := by
    unfold initBackends
    rw [foldl_addBackend]
    simp [List.contains]
  refine ⟨h1, ?_, ?_⟩
  · rw [h1]
    exact firstSeenOrder_nodup _
  · intro c
    rw [h1]
    exact mem_firstSeenOrder c _

/-! ## Claim C1 -/

theorem initReaches_nil_eq {s s' : InitSt} (h : InitReaches s [] s') : s = s' := by
  generalize hg : ([] : List InitEv) = tr at h
  cases h with
  | refl => rfl
  | snoc h1 h2 => simp at hg

theorem initReaches_snoc_inv {s s'' : InitSt} {tr : List InitEv} {e : InitEv}
    (h : InitReaches s (tr ++ [e]) s'') :
    ∃ s', InitReaches s tr s' ∧ InitStep s' e s'' := by
  generalize hg : tr ++ [e] = l at h
  cases h with
  | refl => simp at hg
  | snoc h1 h2 =>
    rename_i s1 tr0 e0
    obtain ⟨h3, h4⟩ := List.append_inj' hg rfl
    obtain ⟨h5, -⟩ := List.cons.inj h4
    subst h3
    subst h5
    exact ⟨s1, h1, h2⟩

theorem initReaches_append {s s'' : InitSt} {t1 t2 : List InitEv}
    (h : InitReaches s (t1 ++ t2) s'') :
    ∃ m, InitReaches s t1 m ∧ InitReaches m t2 s'' := by
  induction t2 using List.reverseRecOn generalizing s'' with
  | nil =>
    exact ⟨s'', by simpa using h, InitReaches.refl s''⟩
  | append_singleton t2 e ih =>
    rw [← List.append_assoc] at h
    obtain ⟨s1, h1, h2⟩ := initReaches_snoc_inv h
    obtain ⟨m, hm1, hm2⟩ := ih h1
    exact ⟨m, hm1, InitReaches.snoc hm2 h2⟩

theorem initApi_settle_invariant {n : Nat} {tr : List InitEv} {s' : InitSt}
    (h : InitReaches (initApiStart n) tr s') :
    ∀ i, i < n → i ∈ s'.pending ∨ ∃ ok, InitEv.settle i ok ∈ tr := by
  induction h with
  | refl =>
    intro i hi
    exact Or.inl (by simpa [initApiStart] using List.mem_range.mpr hi)
  | snoc h1 h2 ih =>
    intro i hi
    cases h2 with
    | settle j pending failed toRun ok hj =>
      rcases ih i hi with hp | ⟨ok', hok⟩
      · by_cases hij : i = j
        · subst hij
          exact Or.inr ⟨ok, by simp⟩
        · exact Or.inl ((List.mem_erase_of_ne hij).mpr hp)
      · exact Or.inr ⟨ok', by simp [hok]⟩
    | run u rest =>
      rcases ih i hi with hp | ⟨ok', hok⟩
      · exact Or.inl hp
      · exact Or.inr ⟨ok', by simp [hok]⟩

/-- Claim C1: in every execution of `initApi` for units `0, …, n-1`, whenever
`run()` was invoked on some unit, every unit's `init()` had already settled
strictly earlier in the trace (the `await Promise.all` barrier). -/
theorem run_after_all_inits (n : Nat) (tr pre post : List InitEv) (u : Nat)
    (s' : InitSt) (h : InitReaches (initApiStart n) tr s')
    (htr : tr = pre ++ InitEv.run u :: post) :
    ∀ i, i < n → ∃ ok, InitEv.settle i ok ∈ pre := by
  subst htr
  have h1 : InitReaches (initApiStart n) (pre ++ ([InitEv.run u] ++ post)) s' := by
    simpa using h
  obtain ⟨m1, hpre, hrest⟩ := initReaches_append h1
  obtain ⟨m2, hrun, -⟩ := initReaches_append hrest
  have hstep : InitStep m1 (InitEv.run u) m2 := by
    have hr1 : InitReaches m1 ([] ++ [InitEv.run u]) m2 := by simpa using hrun
    obtain ⟨s0, hnil, hst⟩ := initReaches_snoc_inv hr1
    cases initReaches_nil_eq hnil
    exact hst
  intro i hi
  have hinv := initApi_settle_invariant hpre i hi
  cases hstep with
  | run u rest =>
    rcases hinv with hp | hs
    · simp at hp
    · exact hs

/-- Witness for C1 on a concrete execution with one unit: settle then run. -/
theorem run_after_all_inits_witness :
    ∃ ok, InitEv.settle 0 ok ∈ [InitEv.settle 0 true] := by
  have d1 : InitStep ⟨[0], false, [0]⟩ (InitEv.settle 0 true) ⟨[], false, [0]⟩ :=
    InitStep.settle 0 [0] false [0] true (by simp)
  have d2 : InitStep ⟨[], false, [0]⟩ (InitEv.run 0) ⟨[], false, []⟩ :=
    InitStep.run 0 []
  have r1 : InitReaches (initApiStart 1) [InitEv.settle 0 true] ⟨[], false, [0]⟩ :=
    InitReaches.snoc (InitReaches.refl (initApiStart 1)) d1
  have r2 : InitReaches (initApiStart 1) [InitEv.settle 0 true, InitEv.run 0]
      ⟨[], false, []⟩ :=
    InitReaches.snoc r1 d2
  exact run_after_all_inits 1 [InitEv.settle 0 true, InitEv.run 0]
    [InitEv.settle 0 true] [] 0 ⟨[], false, []⟩ r2 rfl 0 (by omega)

/-! ## Claim C2 -/

theorem get?_set_self {α : Type} (l : List α) (i : Nat) (a : α) (h : i < l.length) :
    (l.set i a).get? i = some a := by
  induction l generalizing i with
  | nil => simp at h
  | cons x rest ih =>
    cases i with
    | zero => rfl
    | succ j =>
      rw [List.set_cons_succ, List.get?_cons_succ]
      exact ih j (by simp only [List.length_cons] at h; omega)

theorem get?_set_other {α : Type} (l : List α) (i j : Nat) (a : α) (h : i ≠ j) :
    (l.set i a).get? j = l.get? j := by
  induction l generalizing i j with
  | nil => simp
  | cons x rest ih =>
    cases i with
    | zero =>
      cases j with
      | zero => exact absurd rfl h
      | succ k => rfl
    | succ i' =>
      cases j with
      | zero => rfl
      | succ k =>
        rw [List.set_cons_succ, List.get?_cons_succ, List.get?_cons_succ]
        exact ih i' k (by omega)

/-- Claim C2: `Plugin.call` rejects when no container matches the addressed
view type and no sole container exists; a call whose target container's
page-initialized deferred is still pending is parked on the `await` (not
rejected, no hand-off yet, other containers untouched); and resolving that
deferred through `onPageInit` hands off every parked call in FIFO order. -/
theorem hostCall_queue_and_reject (s : CallHost) (identifier vt : String)
    (callId : Nat) (i : Nat) (c : CallContainer) (success : Bool) :
    (s.containers.length ≠ 1 →
      s.containers.findIdx? (fun d => d.viewType == viewTypeOf identifier) = none →
      hostCall s identifier callId = (s, CallOutcome.rejected))
    ∧ (findTargetIdx s.containers identifier = some i →
      s.containers.get? i = some c →
      c.pageInit = none →
      (hostCall s identifier callId).2 = CallOutcome.parked
      ∧ (hostCall s identifier callId).1.containers.get? i
          = some { c with parked := c.parked ++ [callId] }
      ∧ ∀ j, j ≠ i →
          (hostCall s identifier callId).1.containers.get? j = s.containers.get? j)
    ∧ (s.containers.findIdx? (fun d => d.viewType == vt) = some i →
      s.containers.get? i = some c →
      c.pageInit = none →
      (hostOnPageInit s vt success).1.containers.get? i
        = some { c with pageInit := some success,
                        handedOff := c.handedOff ++ c.parked, parked := [] }) := by
  refine ⟨?_, ?_, ?_⟩
  · intro hlen hfind
    unfold hostCall findTargetIdx
    rw [if_neg (by simpa using hlen), hfind]
  · intro hfind hget hpage
    have hlt : i < s.containers.length := by
      obtain ⟨hlt, -⟩ := List.get?_eq_some.mp hget
      exact hlt
    unfold hostCall
    rw [hfind]
    simp only [hget, hpage]
    refine ⟨by trivial, ?_, ?_⟩
    · exact get?_set_self _ _ _ hlt
    · intro j hj
      exact get?_set_other _ _ _ _ (fun he => hj he.symm)
  · intro hfind hget hpage
    have hlt : i < s.containers.length := by
      obtain ⟨hlt, -⟩ := List.get?_eq_some.mp hget
      exact hlt
    unfold hostOnPageInit
    rw [hfind]
    simp only [hget, hpage, resolveDeferred, if_pos]
    exact get?_set_self _ _ _ hlt

/-- Witness for C2: the spec scenario — one container with view type `a`, a
`call("plugin.log", …)` issued before the page signals init is parked, and is
handed off exactly when `onPageInit` resolves the deferred. -/
theorem hostCall_queue_and_reject_witness :
    ((hostCall ⟨[⟨"a", none, [], []⟩]⟩ "plugin.log" 7).2 = CallOutcome.parked
      ∧ (hostCall ⟨[⟨"a", none, [], []⟩]⟩ "plugin.log" 7).1.containers.get? 0
          = some ⟨"a", none, [7], []⟩)
    ∧ (hostOnPageInit ⟨[⟨"a", none, [7], []⟩]⟩ "a" true).1.containers.get? 0
        = some ⟨"a", some true, [], [7]⟩ := by
  have h1 := hostCall_queue_and_reject ⟨[⟨"a", none, [], []⟩]⟩ "plugin.log" "a" 7 0
      ⟨"a", none, [], []⟩ true
  have h2 := hostCall_queue_and_reject ⟨[⟨"a", none, [7], []⟩]⟩ "plugin.log" "a" 7 0
      ⟨"a", none, [7], []⟩ true
  obtain ⟨hp, hq, -⟩ := h1.2.1 (by decide) (by decide) rfl
  have hr := h2.2.2 (by decide) (by decide) rfl
  exact ⟨⟨hp, by simpa using hq⟩, by simpa using hr⟩

/-! ## Claim C5 -/

/-- Counterexample to claim C5 as stated: for the codearts
`Plugin.createWebviewPanel`, calling a second time with the same view type and
`override = false` does NOT return the existing container un-re-rendered — a
brand-new container (fresh instance id, one more render) replaces the map
entry. -/
theorem createWebviewPanel_reuse_counterexample : ¬ c5BrowserReuseClaim := by
  intro h
  have hinst := h ⟨[("a", ⟨0, "a", "T", none, 0⟩)], 1, 1, []⟩
      ⟨"a", "T", none, false⟩ ⟨0, "a", "T", none, 0⟩ (by decide)
  exact absurd hinst (by decide)

/-- Claim C5 amended: the node-side `createDynamicWebviewPanel` reuses the
existing container — with `override = false` it reveals it (unless
`preserveFocus`) without re-rendering, with `override = true` it updates
title/icon/html in place (one fresh render).  The codearts browser-side
`createWebviewPanel` behaves that way only for `override = true`; with
`override = false` it always constructs a fresh container (re-rendering) that
replaces the map entry. -/
theorem createWebviewPanel_amended (sN : NodePanels) (sB : BrowserPanels)
    (opts : PanelOpts) (p : Panel5) :
    (sN.panels.find? (fun q => q.viewType == opts.viewType) = some p →
      nodeCreateDynamicWebviewPanel sN opts false
        = ({ sN with
              panels := sN.panels.map
                (fun q => if q.viewType == opts.viewType then p else q),
              revealLog :=
                if opts.preserveFocus then sN.revealLog
                else sN.revealLog ++ [p.instId] }, some p))
    ∧ (sN.panels.find? (fun q => q.viewType == opts.viewType) = some p →
      (nodeCreateDynamicWebviewPanel sN opts true).2
          = some { p with title := opts.title, iconPath := opts.iconPath,
                          htmlStamp := sN.renders }
      ∧ (nodeCreateDynamicWebviewPanel sN opts true).1.renders = sN.renders + 1)
    ∧ (lookupPanel sB.entries opts.viewType = some p →
      (browserCreateWebviewPanel sB opts true).2
          = { p with title := opts.title, iconPath := opts.iconPath,
                     htmlStamp := sB.renders }
      ∧ (browserCreateWebviewPanel sB opts true).1.renders = sB.renders + 1
      ∧ (browserCreateWebviewPanel sB opts true).1.revealLog
          = (if opts.preserveFocus then sB.revealLog
             else sB.revealLog ++ [p.instId]))
    ∧ (lookupPanel sB.entries opts.viewType = some p →
      (browserCreateWebviewPanel sB opts false).2.instId = sB.nextId
      ∧ (browserCreateWebviewPanel sB opts false).1.renders = sB.renders + 1) := by
  refine ⟨?_, ?_, ?_, ?_⟩
  · intro h
    unfold nodeCreateDynamicWebviewPanel
    rw [h]
    rfl
  · intro h
    unfold nodeCreateDynamicWebviewPanel
    rw [h]
    exact ⟨rfl, rfl⟩
  · intro h
    unfold browserCreateWebviewPanel
    rw [show (if true then lookupPanel sB.entries opts.viewType else none)
        = lookupPanel sB.entries opts.viewType from rfl, h]
    exact ⟨rfl, rfl, rfl⟩
  · intro h
    exact ⟨rfl, rfl⟩

/-- Witness for the amended C5 at concrete states with an existing container
of view type `a`. -/
theorem createWebviewPanel_amended_witness :
    nodeCreateDynamicWebviewPanel ⟨[⟨0, "a", "T", none, 0⟩], 1, 1, []⟩
        ⟨"a", "U", some "icon.svg", false⟩ false
      = (⟨[⟨0, "a", "T", none, 0⟩], 1, 1, [0]⟩, some ⟨0, "a", "T", none, 0⟩)
    ∧ (nodeCreateDynamicWebviewPanel ⟨[⟨0, "a", "T", none, 0⟩], 1, 1, []⟩
        ⟨"a", "U", some "icon.svg", false⟩ true).2
      = some ⟨0, "a", "U", some "icon.svg", 1⟩
    ∧ (browserCreateWebviewPanel ⟨[("a", ⟨0, "a", "T", none, 0⟩)], 1, 1, []⟩
        ⟨"a", "U", some "icon.svg", false⟩ true).2
      = ⟨0, "a", "U", some "icon.svg", 1⟩
    ∧ (browserCreateWebviewPanel ⟨[("a", ⟨0, "a", "T", none, 0⟩)], 1, 1, []⟩
        ⟨"a", "U", some "icon.svg", false⟩ false).2.instId = 1 := by
  have h := createWebviewPanel_amended ⟨[⟨0, "a", "T", none, 0⟩], 1, 1, []⟩
      ⟨[("a", ⟨0, "a", "T", none, 0⟩)], 1, 1, []⟩ ⟨"a", "U", some "icon.svg", false⟩
      ⟨0, "a", "T", none, 0⟩
  refine ⟨?_, ?_, ?_, ?_⟩
  · have h1 := h.1 (by decide)
    simpa using h1
  · have h2 := (h.2.1 (by decide)).1
    simpa using h2
  · have h3 := (h.2.2.1 (by decide)).1
    simpa using h3
  · exact (h.2.2.2 (by decide)).1

/-! ## Claim C6 -/

/-- Counterexample to claim C6 as stated: `dispose()` has no guard on the
disposed flag, so invoking it on an already-disposed container is not a no-op
(the dispose listeners fire again). -/
theorem containerDispose_counterexample : ¬ c6IdempotenceClaim := by
  intro h
  have h2 := h ⟨true, 1⟩ rfl
  exact absurd h2 (by decide)

theorem find?_eraseEntry (entries : List (String × Cont6)) (vt : String) :
    (eraseEntry entries vt).find? (fun e => e.1 == vt) = none := by
  unfold eraseEntry
  induction entries with
  | nil => rfl
  | cons e rest ih =>
    rw [List.filter_cons]
    by_cases he : (e.1 == vt) = true
    · rw [if_neg (by simp [he])]
      exact ih
    · rw [if_pos (by simp [he]), List.find?_cons_of_neg _ (by simpa using he)]
      exact ih

theorem lookupEntry_eraseEntry (entries : List (String × Cont6)) (vt : String) :
    lookupEntry (eraseEntry entries vt) vt = none := by
  unfold lookupEntry
  rw [find?_eraseEntry]
  rfl

theorem eraseEntry_eraseEntry (entries : List (String × Cont6)) (vt : String) :
    eraseEntry (eraseEntry entries vt) vt = eraseEntry entries vt := by
  unfold eraseEntry
  rw [List.filter_filter]
  simp [Bool.and_self]

theorem pluginDisposeView_entries (s : DisposeState) (vt : String) :
    (pluginDisposeView s vt).entries = eraseEntry s.entries vt := by
  unfold pluginDisposeView
  cases hl : lookupEntry s.entries vt with
  | none => rfl
  | some c0 =>
    by_cases hd : c0.disposed <;> simp [hd]

/-- Claim C6 amended: every container-level `dispose()` invocation sets the
disposed flag and fires the registered dispose listeners once more (the
method is not idempotent); idempotence holds one level up — the coordinator's
`dispose(viewType)` skips already-disposed containers and deletes the map
entry, so repeating it adds no further listener notifications. -/
theorem containerDispose_amended (c : Cont6) (s : DisposeState) (vt : String) :
    (containerDispose c).disposed = true
    ∧ (containerDispose c).notifyRounds = c.notifyRounds + 1
    ∧ pluginDisposeView (pluginDisposeView s vt) vt = pluginDisposeView s vt := by
  refine ⟨rfl, rfl, ?_⟩
  generalize hgen : pluginDisposeView s vt = t
  have hent : t.entries = eraseEntry s.entries vt := by
    rw [← hgen, pluginDisposeView_entries]
  have h1 : lookupEntry t.entries vt = none := by
    rw [hent, lookupEntry_eraseEntry]
  unfold pluginDisposeView
  simp only [h1]
  have h2 : eraseEntry t.entries vt = t.entries := by
    rw [hent, eraseEntry_eraseEntry]
  rw [h2]

/-! ## Claim C7 -/

/-- Claim C7 (code bug): on a map with two live containers the coordinator's
`dispose()` with no view type invokes `dispose()` on only the FIRST container
— the `clear()` placed inside the forEach callback empties the map and ends
the iteration — so the second container's `dispose()` is never invoked,
although the map is indeed left empty. -/
theorem disposeAll_skips_second_container :
    pluginDisposeAll ⟨[("a", false), ("b", false)], []⟩ = ⟨[], ["a"]⟩
    ∧ "b" ∉ (pluginDisposeAll ⟨[("a", false), ("b", false)], []⟩).disposeLog := by
  decide

/-! ## Claim C8 -/

/-- Counterexample to claim C8 as stated: the codearts host's `onPageInit`
only resolves the container's page-initialized deferred and subscribes
nothing; and even the node host's `onPageInit` registers nothing when the
huawei-common API is unavailable. -/
theorem beforeUninstall_subscribe_counterexample :
    beforeUninstallEventType ∉
      (caOnPageInit ⟨[("a", none)], [], false⟩ "a" true).1.subscribedEvents
    ∧ ¬ beforeUninstallRegistered
        (nodeOnPageInit ⟨none, [], false, [], false⟩ false true).1 := by
  unfold beforeUninstallRegistered
  decide

/-- Claim C8 amended: the node host's `onPageInit` calls
`subscribeEvent(beforeUninstall)`, which (that type not being in the supported
table) registers a relay through the huawei-common API exactly when that API
is available; the codearts host's `onPageInit` performs no subscription at
all.  `fireTheiaEvent` invokes `stop()` iff the event is `beforeUninstall`
with a payload pluginId matching `publisher.name` case-insensitively. -/
theorem beforeUninstall_amended (st : NodeHost) (stc : CaHost) (vt ty : String)
    (pid : Option String) (publisher name : String) (success : Bool) :
    beforeUninstallEventType ∈ (nodeOnPageInit st true success).1.huaweiRegs
    ∧ (caOnPageInit stc vt success).1.subscribedEvents = stc.subscribedEvents
    ∧ ((ty == beforeUninstallEventType
          && pluginIdMatches pid publisher name) = true →
      (nodeFireTheiaEvent st ty pid publisher name).stopped = true)
    ∧ ((ty == beforeUninstallEventType
          && pluginIdMatches pid publisher name) = false →
      nodeFireTheiaEvent st ty pid publisher name = st) := by
  refine ⟨?_, ?_, ?_, ?_⟩
  · unfold nodeOnPageInit nodeSubscribeEvent
    have hmem : beforeUninstallEventType ∉ nodeSupportedEventTypes := by decide
    simp [hmem]
  · unfold caOnPageInit
    cases hl : (stc.containers.find? (fun e => e.1 == vt)).map Prod.snd with
    | none => rfl
    | some d => rfl
  · intro h
    unfold nodeFireTheiaEvent
    rw [if_pos h]
  · intro h
    unfold nodeFireTheiaEvent
    rw [if_neg (by simp [h])]

/-- Witness for the amended C8 at concrete states and a concrete
mixed-case plugin id. -/
theorem beforeUninstall_amended_witness :
    beforeUninstallEventType ∈
      (nodeOnPageInit ⟨none, [], false, [], false⟩ true true).1.huaweiRegs
    ∧ (caOnPageInit ⟨[("a", none)], [], false⟩ "a" true).1.subscribedEvents = []
    ∧ (nodeFireTheiaEvent ⟨none, [], false, [], false⟩ beforeUninstallEventType
        (some "Pub.Name") "pub" "name").stopped = true
    ∧ nodeFireTheiaEvent ⟨none, [], false, [], false⟩ "other.event"
        (some "Pub.Name") "pub" "name" = ⟨none, [], false, [], false⟩ := by
  have h := beforeUninstall_amended ⟨none, [], false, [], false⟩
      ⟨[("a", none)], [], false⟩ "a" beforeUninstallEventType (some "Pub.Name")
      "pub" "name" true
  have h2 := beforeUninstall_amended ⟨none, [], false, [], false⟩
      ⟨[("a", none)], [], false⟩ "a" "other.event" (some "Pub.Name")
      "pub" "name" true
  exact ⟨h.1, h.2.1, h.2.2.1 (by decide), h2.2.2.2 (by decide)⟩

end Spec2Proof
